import Mathlib

set_option autoImplicit false

/-!
Verification development for the ObsidianFrontmatterEditor repository.

The core components under `src/src/core` — `ConfigManager`,
`PropertyChangeTracker` and `PropertyProcessor` — are shallowly embedded
below as pure Lean functions.  Python dictionaries (front-matter mappings)
are modelled as insertion-ordered association lists; Python `None` is the
value `Value.vnull`; `dict.get` returning `None` for a missing key is
modelled with `Option`.  The document/metadata storage collaborator
(`src/library/note.py`, `src/library/metadata.py`) is not part of the core
sources; where its behaviour matters it is modelled from the specification
of its interface, and each such definition says so in its doc comment.
-/

/-- A YAML/front-matter value as the engine manipulates it: Python `None`,
a string, or a list of strings (the shape of a `tags` field). -/
inductive Value where
  | vnull : Value
  | vstr (s : String) : Value
  | vlist (l : List String) : Value
deriving DecidableEq, Repr

/-- Python rendering of an optional string inside an f-string:
`None` prints as the text `None`. -/
def pyStr : Option String → String
  | none => "None"
  | some s => s

/-- Python truthiness of an optional string: `None` and the empty string
are falsy (`if not tag`, `if not action`, `if not prop.get("old")`). -/
def truthyOptStr : Option String → Bool
  | none => false
  | some s => s ≠ ""

/-- A document's front-matter mapping (`note.metadata.frontmatter.metadata`):
an insertion-ordered association list, keys being Python values that are
either strings or `None` (so `Option String`). -/
abbrev Frontmatter := List (Option String × Value)

/-- Modelled from the spec: the metadata collaborator's
`has(property) -> bool` membership test. -/
def fmHas (fm : Frontmatter) (k : Option String) : Bool :=
  fm.any (fun e => e.1 == k)

/-- Lookup of a key in a front-matter mapping, `none` when absent. -/
def fmGet? (fm : Frontmatter) (k : Option String) : Option Value :=
  (fm.find? (fun e => e.1 == k)).map (·.2)

/-- Modelled from the spec: the metadata collaborator's
`get(property) -> value` read (only called on present properties;
an absent key reads as Python `None`). -/
def metadataGet (fm : Frontmatter) (k : Option String) : Value :=
  (fmGet? fm k).getD Value.vnull

/-- Modelled from the spec: the metadata collaborator's
`add(property, value, kind)` write.  Per the spec's note on `rename`, an
existing value under the key is silently overwritten (Python dict
assignment: replace in place if present, else append). -/
def fmSet (fm : Frontmatter) (k : Option String) (v : Value) : Frontmatter :=
  if fmHas fm k then fm.map (fun e => if e.1 == k then (k, v) else e)
  else fm ++ [(k, v)]

/-- Modelled from the spec: the metadata collaborator's
`remove(property)` deletion. -/
def fmRemove (fm : Frontmatter) (k : Option String) : Frontmatter :=
  fm.filter (fun e => !(e.1 == k))

/-- The kind argument of `metadata.add`; only `FRONTMATTER` is used by the
processor. -/
inductive MetadataType where
  | FRONTMATTER : MetadataType
deriving DecidableEq, Repr

/-- One entry of `PropertyChangeTracker._changes`, as built by
`add_change(action, old_property, new_property, old_value, new_value)`:
a dict with all five keys, unsupplied arguments defaulting to `None`.
A `None`-valued `old_value`/`new_value` is `Value.vnull`. -/
structure ChangeRecord where
  action : String
  old_property : Option String
  new_property : Option String
  old_value : Value
  new_value : Value
deriving DecidableEq, Repr

/-- `PropertyChangeTracker`: per-document filename, before/after
front-matter snapshots, ordered change records, ordered log strings. -/
structure PropertyChangeTracker where
  filename : String
  old_frontmatter : Frontmatter
  new_frontmatter : Frontmatter
  changes : List ChangeRecord
  logs : List String
deriving DecidableEq, Repr

/-- `PropertyChangeTracker.add_change`: appends one record; no
deduplication. -/
def addChange (t : PropertyChangeTracker) (c : ChangeRecord) : PropertyChangeTracker :=
  { t with changes := t.changes ++ [c] }

/-- `PropertyChangeTracker.add_log`: appends one diagnostic string. -/
def addLog (t : PropertyChangeTracker) (m : String) : PropertyChangeTracker :=
  { t with logs := t.logs ++ [m] }

/-- A document (`Note`): its path and its front-matter mapping. -/
structure Note where
  path : String
  frontmatter : Frontmatter
deriving DecidableEq, Repr

/-- The mutable state threaded through one document's operation list: the
note's live front-matter and the tracker for the current note. -/
structure NoteProcState where
  fm : Frontmatter
  tracker : PropertyChangeTracker
deriving DecidableEq, Repr

/-- `PropertyProcessor._rename_property(old_property, new_property)`:
if the property is present, write its value under the new name (silently
overwriting), delete the old name, and record one change with the value as
both `old_value` and `new_value`; otherwise log
`Property '<old>' not found.`. -/
def renameProperty (old_property new_property : Option String) (s : NoteProcState) :
    NoteProcState :=
  if fmHas s.fm old_property then
    let value := metadataGet s.fm old_property
    let fm1 := fmSet s.fm new_property value
    let fm2 := fmRemove fm1 old_property
    { fm := fm2,
      tracker := addChange s.tracker
        { action := "rename", old_property := old_property,
          new_property := new_property, old_value := value, new_value := value } }
  else
    { s with
      tracker := addLog s.tracker ("Property \x27" ++ pyStr old_property ++ "\x27 not found.") }

/-- `PropertyProcessor._add_property(prop, value)`: if the property is
absent, set it and record one change (with `old_property`/`old_value`
left at their `None` defaults); otherwise log
`Property '<prop>' already exists.`.  The Python signature declares a
default `value=""`, but the only call site always passes
`prop.get("default")` explicitly, so the declared default is never used. -/
def addProperty (prop : Option String) (value : Value) (s : NoteProcState) :
    NoteProcState :=
  if !(fmHas s.fm prop) then
    { fm := fmSet s.fm prop value,
      tracker := addChange s.tracker
        { action := "add", old_property := none, new_property := prop,
          old_value := Value.vnull, new_value := value } }
  else
    { s with
      tracker := addLog s.tracker ("Property \x27" ++ pyStr prop ++ "\x27 already exists.") }

/-- `PropertyProcessor._remove_property(prop)`: if present, delete it and
record one change; otherwise log `Property '<prop>' not found.`. -/
def removeProperty (prop : Option String) (s : NoteProcState) : NoteProcState :=
  if fmHas s.fm prop then
    { fm := fmRemove s.fm prop,
      tracker := addChange s.tracker
        { action := "remove", old_property := prop, new_property := none,
          old_value := Value.vnull, new_value := Value.vnull } }
  else
    { s with
      tracker := addLog s.tracker ("Property \x27" ++ pyStr prop ++ "\x27 not found.") }

/-- One raw property entry of the configuration, as read through
`prop.get("action")`, `prop.get("old")`, `prop.get("new")`,
`prop.get("default")` — each `none` when the key is absent
(`default` additionally carries an arbitrary YAML value when present). -/
structure PropEntry where
  action : Option String
  old : Option String
  new : Option String
  default : Option Value
deriving DecidableEq, Repr

/-- Python `None` — the value `prop.get("default")` yields when the
configuration entry specifies no default; YAML renders it as an empty
value after the key. -/
def emptyValue : Value := Value.vnull

/-- `PropertyProcessor._process_properties`, one step: dispatch one entry
on its `action`.  `add` receives `prop.get("new")` and
`prop.get("default")` (the latter Python `None` when unspecified); any
other action than `add`/`rename`/`remove` falls through silently. -/
def processProp (s : NoteProcState) (p : PropEntry) : NoteProcState :=
  if p.action == some "add" then
    addProperty p.new (p.default.getD Value.vnull) s
  else if p.action == some "rename" then
    renameProperty p.old p.new s
  else if p.action == some "remove" then
    removeProperty p.old s
  else
    s

/-- `PropertyProcessor._process_properties`: apply every entry in order
against the same document state. -/
def processProperties (props : List PropEntry) (s : NoteProcState) : NoteProcState :=
  props.foldl processProp s

/-- A diagnostic emitted by `ConfigManager`: `_print_error` or
`_print_warning` (rendered with an `[ERROR] - ` / `[WARNING] - ` prefix). -/
inductive Diag where
  | error (msg : String) : Diag
  | warning (msg : String) : Diag
deriving DecidableEq, Repr

/-- One item of a tag entry's `properties` list: a mapping (dict) carrying
the entry's fields, or some non-mapping YAML value. -/
inductive PropItem where
  | entry (p : PropEntry) : PropItem
  | nonDict : PropItem
deriving DecidableEq, Repr

/-- The raw value under a tag entry's `properties` key: a YAML sequence of
items, or some non-sequence value. -/
inductive PropsVal where
  | items (l : List PropItem) : PropsVal
  | notAList : PropsVal
deriving DecidableEq, Repr

/-- One raw tag entry of the configuration: `tag.get("tag")` and
`tag.get("properties")`, each `none` when the key is absent. -/
structure TagEntry where
  tag : Option String
  properties : Option PropsVal
deriving DecidableEq, Repr

/-- Stand-in for Python's textual rendering of a tag-entry dict inside the
f-string diagnostics of `_validate_tag` (the claims depend on which
diagnostics are emitted, not on this rendering). -/
def tagRepr (t : TagEntry) : String :=
  "\x7btag: " ++ pyStr t.tag ++ "\x7d"

/-- `ConfigManager._validate_tag`: reject (with one error diagnostic) a tag
entry with a falsy `tag` name, a `properties` value that is not a list, or
a `properties` list containing a non-dict item. -/
def validateTag (t : TagEntry) : List Diag × Bool :=
  if !(truthyOptStr t.tag) then
    ([Diag.error "No tag found."], false)
  else
    match t.properties with
    | some (PropsVal.items l) =>
        if l.all (fun i => match i with | PropItem.entry _ => true | PropItem.nonDict => false) then
          ([], true)
        else
          ([Diag.error ("Properties for tag " ++ tagRepr t ++ " must be a list of dictionaries.")],
            false)
    | _ =>
        ([Diag.error ("Properties for tag " ++ tagRepr t ++ " must be a list.")], false)

/-- `ConfigManager._validate_properties`, one loop iteration: drop an entry
with a falsy action (error), a falsy `old` for rename/remove (error), a
falsy `new` for rename/add (error), or `prop.get("new") == prop.get("old")`
(warning, Python `None == None` included); otherwise keep it. -/
def validatePropStep (tagName : Option String) (acc : List Diag × List PropEntry)
    (p : PropEntry) : List Diag × List PropEntry :=
  if !(truthyOptStr p.action) then
    (acc.1 ++ [Diag.error ("No action defined for properties in tag: " ++ pyStr tagName ++ ".")],
      acc.2)
  else if (p.action == some "rename" || p.action == some "remove") && !(truthyOptStr p.old) then
    (acc.1 ++ [Diag.error ("Old property for action: " ++ pyStr p.action ++ " in tag: " ++
        pyStr tagName ++ " not found.")], acc.2)
  else if (p.action == some "rename" || p.action == some "add") && !(truthyOptStr p.new) then
    (acc.1 ++ [Diag.error ("New property for action: " ++ pyStr p.action ++ " in tag: " ++
        pyStr tagName ++ " not found.")], acc.2)
  else if p.new == p.old then
    (acc.1 ++ [Diag.warning ("Old and new properties are the same for action: " ++
        pyStr p.action ++ " in tag: " ++ pyStr tagName ++ ".")], acc.2)
  else
    (acc.1, acc.2 ++ [p])

/-- `ConfigManager._validate_properties`: fold the per-entry validation over
the tag's property entries, collecting diagnostics and survivors.  It is
only called after `_validate_tag` accepted the entry, so every item is a
dict; the entries are passed here already extracted. -/
def validateProperties (tagName : Option String) (props : List PropEntry) :
    List Diag × List PropEntry :=
  props.foldl (validatePropStep tagName) ([], [])

/-- The loaded YAML configuration: the value under the top-level `tags`
key, `none` when the key is absent (`self._yaml.get("tags") is None`).
A present-but-null `tags` value also tests `is None` but then crashes the
generator's `for` loop with a `TypeError`; no claim depends on it and it is
not modelled. -/
structure Config where
  tags : Option (List TagEntry)
deriving DecidableEq, Repr

/-- Extract the `PropEntry` of a dict item (total; only applied to lists
`_validate_tag` has checked to contain dicts only). -/
def propItemEntry : PropItem → Option PropEntry
  | PropItem.entry p => some p
  | PropItem.nonDict => none

/-- The dict entries of a tag's `properties` list. -/
def tagPropEntries (t : TagEntry) : List PropEntry :=
  match t.properties with
  | some (PropsVal.items l) => l.filterMap propItemEntry
  | _ => []

/-- `ConfigManager.get_next_tag`: when the `tags` key is absent, emit one
error diagnostic and yield the degenerate pair `(None, None)` (the
subsequent `for` loop over `get("tags", [])` then iterates nothing);
otherwise, for each tag entry in order, validate it, and yield
`(tag.get("tag"), validated properties)` exactly for the entries
`_validate_tag` accepts.  Returns (diagnostics, yielded pairs). -/
def getNextTag (cfg : Config) :
    List Diag × List (Option String × Option (List PropEntry)) :=
  match cfg.tags with
  | none => ([Diag.error "No tags found."], [(none, none)])
  | some entries =>
      entries.foldl
        (fun acc t =>
          let vt := validateTag t
          if vt.2 then
            let vp := validateProperties t.tag (tagPropEntries t)
            (acc.1 ++ vt.1 ++ vp.1, acc.2 ++ [(t.tag, some vp.2)])
          else
            (acc.1 ++ vt.1, acc.2))
        ([], [])

/-- Modelled from the spec: the storage collaborator's tag-membership
criterion used by `filter(has_meta=[("tags", tag, None)])` — a document
matches when its `tags` front-matter field contains the tag as one of
(possibly several) values; membership test, not equality. -/
def noteMatchesTag (tag : String) (n : Note) : Bool :=
  match fmGet? n.frontmatter (some "tags") with
  | some (Value.vlist l) => l.contains tag
  | some (Value.vstr s) => s == tag
  | _ => false

/-- `PropertyProcessor`'s mutable state: the shared `Notes` collection
(`self._notes`) and the accumulated session of trackers
(`self._all_changes`). -/
structure ProcessorState where
  notes : List Note
  allChanges : List PropertyChangeTracker
deriving DecidableEq, Repr

/-- `PropertyProcessor._get_filtered_notes`: `notes = self._notes` aliases
the processor's own collection, `notes.filter(...)` restricts that shared
collection in place (modelled from the spec: `filter(criteria)` yields the
subset of documents matching the criteria), and the very same object is
returned — so the returned collection IS the processor's collection after
the call. -/
def getFilteredNotes (st : ProcessorState) (tag : String) :
    ProcessorState × List Note :=
  let filtered := st.notes.filter (noteMatchesTag tag)
  ({ st with notes := filtered }, filtered)

/-- The body of `PropertyProcessor.run`'s inner loop for one note: create a
tracker `(str(note.path), {}, {})`, snapshot (deep-copy) the note's
front-matter as `old_frontmatter`, apply every operation in order against
the same note, snapshot (deep-copy) the result as `new_frontmatter`.
Returns the mutated note and the finished tracker. -/
def processNote (props : List PropEntry) (n : Note) : Note × PropertyChangeTracker :=
  let t0 : PropertyChangeTracker :=
    { filename := n.path, old_frontmatter := [], new_frontmatter := [],
      changes := [], logs := [] }
  let t1 := { t0 with old_frontmatter := n.frontmatter }
  let s := processProperties props { fm := n.frontmatter, tracker := t1 }
  ({ n with frontmatter := s.fm }, { s.tracker with new_frontmatter := s.fm })

/-- Python truthiness of a yielded `properties` value: `None` and the empty
list are falsy (`if not properties`). -/
def truthyProps : Option (List PropEntry) → Bool
  | none => false
  | some l => !(l.isEmpty)

/-- One iteration of `PropertyProcessor.run`'s rule loop: skip the pair if
`tag` or `properties` is falsy; otherwise filter the shared collection in
place via `_get_filtered_notes`, skip if nothing matched (the collection
stays filtered), else process every matched note and append its tracker to
the session. -/
def runRule (st : ProcessorState) (pair : Option String × Option (List PropEntry)) :
    ProcessorState :=
  if !(truthyOptStr pair.1) || !(truthyProps pair.2) then st
  else
    let fr := getFilteredNotes st (pyStr pair.1)
    if fr.2.isEmpty then fr.1
    else
      let results := fr.2.map (processNote (pair.2.getD []))
      { notes := results.map (·.1),
        allChanges := fr.1.allChanges ++ results.map (·.2) }

/-- The rule-loop phase of `PropertyProcessor.run`: fold the rule iteration
over the pairs produced by `ConfigManager.get_next_tag`, starting from the
vault's notes and an empty session. -/
def runRules (cfg : Config) (initialNotes : List Note) : ProcessorState :=
  (getNextTag cfg).2.foldl runRule { notes := initialNotes, allChanges := [] }

/-- An observable event of `PropertyProcessor._finish` /
`PropertyProcessor._backup_vault`, in program order. -/
inductive FinishEvent where
  | showSummary (t : PropertyChangeTracker) : FinishEvent
  | promptConfirmation : FinishEvent
  | printCancelled : FinishEvent
  | backupCreated : FinishEvent
  | backupFailed (msg : String) : FinishEvent
  | updateContent : FinishEvent
  | writeNotes : FinishEvent
  | printSaved : FinishEvent
deriving DecidableEq, Repr

/-- The operator's response at the confirmation gate: Enter, or a
`KeyboardInterrupt` (Ctrl+C). -/
inductive ConfirmOutcome where
  | acknowledged : ConfirmOutcome
  | interrupted : ConfirmOutcome
deriving DecidableEq, Repr

/-- Whether `shutil.make_archive` succeeds or raises. -/
inductive BackupOutcome where
  | success : BackupOutcome
  | failure (msg : String) : BackupOutcome
deriving DecidableEq, Repr

/-- `PropertyProcessor._finish` as its event trace: show every tracker's
summary, prompt; on `KeyboardInterrupt` print the cancellation notice and
return; otherwise run `_backup_vault` — which on failure prints the error
and calls `exit(-1)`, ending the process — and only on backup success
`self._notes.update_content()`, `self._notes.write()` and the success
notice follow. -/
def finishTrace (changes : List PropertyChangeTracker) (confirm : ConfirmOutcome)
    (backup : BackupOutcome) : List FinishEvent :=
  changes.map FinishEvent.showSummary ++ [FinishEvent.promptConfirmation] ++
    match confirm with
    | ConfirmOutcome.interrupted => [FinishEvent.printCancelled]
    | ConfirmOutcome.acknowledged =>
        match backup with
        | BackupOutcome.failure m => [FinishEvent.backupFailed m]
        | BackupOutcome.success =>
            [FinishEvent.backupCreated, FinishEvent.updateContent,
              FinishEvent.writeNotes, FinishEvent.printSaved]

/-- The ways `open(path)` / `safe_load(file)` can turn out inside
`ConfigManager._load_yaml`: parsed content, `FileNotFoundError`,
`yaml.YAMLError`, or any other exception. -/
inductive LoadInput where
  | parsed (cfg : Config) : LoadInput
  | fileNotFound : LoadInput
  | yamlError : LoadInput
  | otherError (msg : String) : LoadInput
deriving DecidableEq, Repr

/-- What a call to `ConfigManager._load_yaml` does to the process: return
the loaded configuration, or print an error and terminate the process via
`exit(-1)` without returning to the caller. -/
inductive LoadOutcome where
  | ok (cfg : Config) : LoadOutcome
  | exited (code : Int) (errMsg : String) : LoadOutcome
deriving DecidableEq, Repr

/-- `ConfigManager._load_yaml(path)`: return the parsed content; on
`FileNotFoundError`, `yaml.YAMLError`, or any other exception, print a
case-specific `[ERROR] - ` message and call `exit(-1)` directly. -/
def loadYaml (path : String) (inp : LoadInput) : LoadOutcome :=
  match inp with
  | LoadInput.parsed cfg => LoadOutcome.ok cfg
  | LoadInput.fileNotFound =>
      LoadOutcome.exited (-1) ("[ERROR] - The file " ++ path ++ " was not found.")
  | LoadInput.yamlError =>
      LoadOutcome.exited (-1) ("[ERROR] - The file " ++ path ++ " could not be read.")
  | LoadInput.otherError m =>
      LoadOutcome.exited (-1) ("[ERROR] - An error occurred: " ++ m)

/-! ### Helper lemmas about the front-matter mapping -/

theorem fmGet?_fmRemove_ne (fm : Frontmatter) (k k2 : Option String) (h : k ≠ k2) :
    fmGet? (fmRemove fm k2) k = fmGet? fm k := by
  induction fm with
  | nil => rfl
  | cons a t ih =>
    simp only [fmGet?, fmRemove] at ih ⊢
    by_cases hb : (a.1 == k2) = true
    · have hb' : a.1 = k2 := by rwa [beq_iff_eq] at hb
      have hk : (a.1 == k) = false := by
        rw [beq_eq_false_iff_ne]
        intro hh
        exact h (by rw [← hh]; exact hb')
      simp only [List.filter_cons, hb, Bool.not_true, List.find?_cons, hk]
      simpa using ih
    · have hb2 : (a.1 == k2) = false := by
        cases hx : (a.1 == k2) with
        | true => exact absurd hx hb
        | false => rfl
      simp only [List.filter_cons, hb2, Bool.not_false, if_true, List.find?_cons]
      by_cases hk : (a.1 == k) = true
      · simp [hk]
      · have hk2 : (a.1 == k) = false := by
          cases hx : (a.1 == k) with
          | true => exact absurd hx hk
          | false => rfl
        simp only [hk2]
        simpa using ih

theorem fmHas_fmRemove_self (fm : Frontmatter) (k : Option String) :
    fmHas (fmRemove fm k) k = false := by
  rw [Bool.eq_false_iff]
  intro hc
  rw [fmHas, List.any_eq_true] at hc
  obtain ⟨e, he, hp⟩ := hc
  rw [fmRemove, List.mem_filter] at he
  have h2 := he.2
  rw [hp] at h2
  simp at h2

theorem fmGet?_fmSet_self (fm : Frontmatter) (k : Option String) (v : Value) :
    fmGet? (fmSet fm k v) k = some v := by
  unfold fmSet
  by_cases h : fmHas fm k = true
  · rw [if_pos h, fmGet?, List.find?_map]
    have hpred : ((fun (e : Option String × Value) => e.1 == k) ∘
        fun e => if e.1 == k then (k, v) else e) = fun e => e.1 == k := by
      funext e
      by_cases he : e.1 = k <;> simp [he]
    rw [hpred]
    rw [fmHas, List.any_eq_true] at h
    obtain ⟨e, he, hp⟩ := h
    cases hf : fm.find? (fun e => e.1 == k) with
    | none =>
      rw [List.find?_eq_none] at hf
      exact absurd hp (hf e he)
    | some e0 =>
      have hp0 := List.find?_some hf
      simp only [beq_iff_eq] at hp0
      simp [hp0]
  · rw [if_neg h, fmGet?, List.find?_append]
    have hn : fm.find? (fun e => e.1 == k) = none := by
      rw [List.find?_eq_none]
      intro x hx hb
      exact h (by rw [fmHas, List.any_eq_true]; exact ⟨x, hx, hb⟩)
    rw [hn]
    simp

theorem fmHas_fmSet_self (fm : Frontmatter) (k : Option String) (v : Value) :
    fmHas (fmSet fm k v) k = true := by
  have h := fmGet?_fmSet_self fm k v
  rw [fmGet?] at h
  rw [fmHas, List.any_eq_true]
  cases hf : (fmSet fm k v).find? (fun e => e.1 == k) with
  | none => rw [hf] at h; simp at h
  | some e =>
    have hp := List.find?_some hf
    exact ⟨e, List.mem_of_find?_eq_some hf, hp⟩

/-! ### Helper lemmas about property validation -/

theorem validatePropStep_snd (tagName : Option String) (acc : List Diag × List PropEntry)
    (p : PropEntry) :
    (validatePropStep tagName acc p).2 = acc.2 ∨
      ((validatePropStep tagName acc p).2 = acc.2 ++ [p] ∧ (p.new == p.old) = false) := by
  unfold validatePropStep
  by_cases h1 : (!(truthyOptStr p.action)) = true
  · rw [if_pos h1]; exact Or.inl rfl
  · rw [if_neg h1]
    by_cases h2 : ((p.action == some "rename" || p.action == some "remove") &&
        !(truthyOptStr p.old)) = true
    · rw [if_pos h2]; exact Or.inl rfl
    · rw [if_neg h2]
      by_cases h3 : ((p.action == some "rename" || p.action == some "add") &&
          !(truthyOptStr p.new)) = true
      · rw [if_pos h3]; exact Or.inl rfl
      · rw [if_neg h3]
        by_cases h4 : (p.new == p.old) = true
        · rw [if_pos h4]; exact Or.inl rfl
        · rw [if_neg h4]
          refine Or.inr ⟨rfl, ?_⟩
          cases hx : (p.new == p.old) with
          | true => exact absurd hx h4
          | false => rfl

theorem validateProps_foldl_mono (tagName : Option String) (l : List PropEntry)
    (acc : List Diag × List PropEntry) (q : PropEntry) (hq : q ∈ acc.2) :
    q ∈ (l.foldl (validatePropStep tagName) acc).2 := by
  induction l generalizing acc with
  | nil => exact hq
  | cons a t ih =>
    apply ih
    rcases validatePropStep_snd tagName acc a with h | ⟨h, _⟩
    · rw [h]; exact hq
    · rw [h]; exact List.mem_append_left _ hq

theorem validateProps_mem (tagName : Option String) (props : List PropEntry)
    (acc : List Diag × List PropEntry) (q : PropEntry)
    (h : q ∈ (props.foldl (validatePropStep tagName) acc).2) :
    q ∈ acc.2 ∨ (q.new == q.old) = false := by
  induction props generalizing acc with
  | nil => exact Or.inl h
  | cons a t ih =>
    rcases ih (validatePropStep tagName acc a) h with h2 | h2
    · rcases validatePropStep_snd tagName acc a with hs | ⟨hs, hb⟩
      · rw [hs] at h2
        exact Or.inl h2
      · rw [hs] at h2
        rcases List.mem_append.mp h2 with h3 | h3
        · exact Or.inl h3
        · have hqa : q = a := List.mem_singleton.mp h3
          rw [hqa]
          exact Or.inr hb
    · exact Or.inr h2

theorem validatePropStep_keep (tagName : Option String) (acc : List Diag × List PropEntry)
    (p : PropEntry) (h1 : truthyOptStr p.action = true)
    (h2 : p.action ≠ some "rename") (h3 : p.action ≠ some "add")
    (h4 : p.action ≠ some "remove") (h5 : p.new ≠ p.old) :
    validatePropStep tagName acc p = (acc.1, acc.2 ++ [p]) := by
  have hbr : (p.action == some "rename") = false := by rwa [beq_eq_false_iff_ne]
  have hba : (p.action == some "add") = false := by rwa [beq_eq_false_iff_ne]
  have hbm : (p.action == some "remove") = false := by rwa [beq_eq_false_iff_ne]
  unfold validatePropStep
  rw [if_neg (by simp [h1]), if_neg (by simp [hbr, hbm]), if_neg (by simp [hbr, hba]),
    if_neg (by simp [h5])]

/-! ### Sample inputs used by the witnesses -/

/-- A sample per-note state: front-matter with a `status` and a `state`
property and a fresh tracker. -/
def wState : NoteProcState :=
  { fm := [(some "status", Value.vstr "draft"), (some "state", Value.vstr "x")],
    tracker := { filename := "a.md", old_frontmatter := [], new_frontmatter := [],
                 changes := [], logs := [] } }

/-- A sample `add` entry with no `default` key. -/
def wAddProp : PropEntry :=
  { action := some "add", old := none, new := some "priority", default := none }

/-- A sample `rename` entry whose `old` and `new` coincide. -/
def wDupProp : PropEntry :=
  { action := some "rename", old := some "state", new := some "state", default := none }

/-- A sample entry with an action outside rename/add/remove. -/
def wUnknownProp : PropEntry :=
  { action := some "modify", old := some "a", new := some "b", default := none }

/-! ### Claim theorems -/

/-- C3: for every document and applied `rename(old_property, new_property)`
(validation guarantees `old ≠ new` for applied operations): if
`old_property` is present, its value ends up under `new_property`
(overwriting whatever was there, with no check), `old_property` is deleted,
and exactly one ChangeRecord is appended carrying that value as both
`old_value` and `new_value`, with no log entry; if `old_property` is
absent, the metadata is unchanged, no ChangeRecord is appended, and exactly
one `property not found` log entry is appended. -/
theorem rename_property_spec (s : NoteProcState) (old_property new_property : Option String)
    (hne : old_property ≠ new_property) :
    (fmHas s.fm old_property = true →
      fmGet? (renameProperty old_property new_property s).fm new_property
          = some (metadataGet s.fm old_property) ∧
      fmHas (renameProperty old_property new_property s).fm old_property = false ∧
      (renameProperty old_property new_property s).tracker.changes
          = s.tracker.changes ++
            [⟨"rename", old_property, new_property, metadataGet s.fm old_property,
              metadataGet s.fm old_property⟩] ∧
      (renameProperty old_property new_property s).tracker.logs = s.tracker.logs) ∧
    (fmHas s.fm old_property = false →
      (renameProperty old_property new_property s).fm = s.fm ∧
      (renameProperty old_property new_property s).tracker.changes = s.tracker.changes ∧
      (renameProperty old_property new_property s).tracker.logs
          = s.tracker.logs ++ ["Property \x27" ++ pyStr old_property ++ "\x27 not found."]) := by
  constructor
  · intro hpos
    unfold renameProperty
    rw [if_pos hpos]
    refine ⟨?_, ?_, rfl, rfl⟩
    · show fmGet? (fmRemove (fmSet s.fm new_property (metadataGet s.fm old_property))
          old_property) new_property = some (metadataGet s.fm old_property)
      rw [fmGet?_fmRemove_ne _ _ _ (Ne.symm hne), fmGet?_fmSet_self]
    · show fmHas (fmRemove (fmSet s.fm new_property (metadataGet s.fm old_property))
          old_property) old_property = false
      exact fmHas_fmRemove_self _ _
  · intro hneg
    unfold renameProperty
    rw [if_neg (by simp [hneg])]
    exact ⟨rfl, rfl, rfl⟩

/-- Witness for C3: renaming `status` to `state` on a concrete document. -/
theorem rename_property_spec_witness :
    ((some "status" : Option String) ≠ some "state") ∧
    fmHas wState.fm (some "status") = true ∧
    fmGet? (renameProperty (some "status") (some "state") wState).fm (some "state")
        = some (metadataGet wState.fm (some "status")) :=
  ⟨by decide, by decide,
    ((rename_property_spec wState (some "status") (some "state") (by decide)).1
      (by decide)).1⟩

/-- C4: for every document and applied `add` entry: if the property is
absent it is set to the entry's `default` — Python `None`, the empty
value, when the entry specifies no default — with exactly one ChangeRecord
and no log entry; if the property is already present the metadata is
unchanged and exactly one `property already exists` log entry is appended
with no ChangeRecord, so re-applying the same add is a no-op (the first
application makes the property present). -/
theorem add_property_spec (s : NoteProcState) (p : PropEntry) (ha : p.action = some "add") :
    (fmHas s.fm p.new = false →
      fmGet? (processProp s p).fm p.new = some (p.default.getD emptyValue) ∧
      (p.default = none → fmGet? (processProp s p).fm p.new = some emptyValue) ∧
      fmHas (processProp s p).fm p.new = true ∧
      (processProp s p).tracker.changes = s.tracker.changes ++
        [⟨"add", none, p.new, Value.vnull, p.default.getD emptyValue⟩] ∧
      (processProp s p).tracker.logs = s.tracker.logs) ∧
    (fmHas s.fm p.new = true →
      (processProp s p).fm = s.fm ∧
      (processProp s p).tracker.changes = s.tracker.changes ∧
      (processProp s p).tracker.logs = s.tracker.logs ++
        ["Property \x27" ++ pyStr p.new ++ "\x27 already exists."]) := by
  constructor
  · intro hf
    unfold processProp
    rw [if_pos (by rw [ha]; rfl)]
    unfold addProperty
    rw [if_pos (by simp [hf])]
    refine ⟨?_, ?_, ?_, rfl, rfl⟩
    · show fmGet? (fmSet s.fm p.new (p.default.getD Value.vnull)) p.new = _
      rw [fmGet?_fmSet_self]
      rfl
    · intro hd
      show fmGet? (fmSet s.fm p.new (p.default.getD Value.vnull)) p.new = _
      rw [fmGet?_fmSet_self, hd]
      rfl
    · show fmHas (fmSet s.fm p.new (p.default.getD Value.vnull)) p.new = true
      exact fmHas_fmSet_self _ _ _
  · intro hf
    unfold processProp
    rw [if_pos (by rw [ha]; rfl)]
    unfold addProperty
    rw [if_neg (by simp [hf])]
    exact ⟨rfl, rfl, rfl⟩

/-- Witness for C4: adding `priority` with no configured default sets the
empty value (Python `None`). -/
theorem add_property_spec_witness :
    wAddProp.action = some "add" ∧ fmHas wState.fm wAddProp.new = false ∧
    fmGet? (processProp wState wAddProp).fm wAddProp.new = some emptyValue :=
  ⟨rfl, by decide, ((add_property_spec wState wAddProp rfl).1 (by decide)).2.1 rfl⟩

/-- C8: a property entry whose `new` equals its `old` never survives
validation (so no document is ever modified by it), and an entry that
reaches the `old == new` check (truthy action, required fields present) is
dropped with exactly one warning diagnostic. -/
theorem dup_property_dropped (tagName : Option String) (props : List PropEntry)
    (p : PropEntry) (heq : p.new = p.old) :
    p ∉ (validateProperties tagName props).2 ∧
    (∀ acc : List Diag × List PropEntry,
      truthyOptStr p.action = true →
      ((p.action == some "rename" || p.action == some "remove") = true →
        truthyOptStr p.old = true) →
      ((p.action == some "rename" || p.action == some "add") = true →
        truthyOptStr p.new = true) →
      validatePropStep tagName acc p
        = (acc.1 ++ [Diag.warning ("Old and new properties are the same for action: " ++
            pyStr p.action ++ " in tag: " ++ pyStr tagName ++ ".")], acc.2)) := by
  constructor
  · intro hmem
    rcases validateProps_mem tagName props ([], []) p hmem with h | h
    · simp at h
    · rw [beq_eq_false_iff_ne] at h
      exact h heq
  · intro acc h1 h2 h3
    unfold validatePropStep
    rw [if_neg (by simp [h1])]
    rw [if_neg ?hold, if_neg ?hnew, if_pos (by simp [heq])]
    case hold =>
      intro hc
      rw [Bool.and_eq_true] at hc
      have hh := h2 hc.1
      rw [hh] at hc
      simp at hc
    case hnew =>
      intro hc
      rw [Bool.and_eq_true] at hc
      have hh := h3 hc.1
      rw [hh] at hc
      simp at hc

/-- Witness for C8: a `rename` with `old = new = state` is excluded from
the surviving operations. -/
theorem dup_property_dropped_witness :
    wDupProp.new = wDupProp.old ∧
    wDupProp ∉ (validateProperties (some "draft") [wDupProp]).2 :=
  ⟨by decide, (dup_property_dropped (some "draft") [wDupProp] wDupProp (by decide)).1⟩

/-- C10: a property entry with a non-empty action outside
rename/add/remove (and `old ≠ new`) survives validation — every occurrence
of it in a tag's property list is accepted into the surviving sequence —
and applying it to a document is a silent no-op: the state (metadata,
change records, logs) is returned unchanged and no diagnostic is
produced. -/
theorem unknown_action_accepted_noop (tagName : Option String) (props : List PropEntry)
    (p : PropEntry) (s : NoteProcState)
    (h1 : truthyOptStr p.action = true)
    (h2 : p.action ≠ some "rename") (h3 : p.action ≠ some "add")
    (h4 : p.action ≠ some "remove") (h5 : p.new ≠ p.old) :
    (p ∈ props → p ∈ (validateProperties tagName props).2) ∧ processProp s p = s := by
  constructor
  · intro hmem
    unfold validateProperties
    have haux : ∀ (l : List PropEntry) (acc : List Diag × List PropEntry), p ∈ l →
        p ∈ (l.foldl (validatePropStep tagName) acc).2 := by
      intro l
      induction l with
      | nil => intro acc hc; exact absurd hc (List.not_mem_nil p)
      | cons a t ih =>
        intro acc hc
        rcases List.mem_cons.mp hc with hpa | hpt
        · show p ∈ (t.foldl (validatePropStep tagName) (validatePropStep tagName acc a)).2
          apply validateProps_foldl_mono
          rw [← hpa, validatePropStep_keep tagName acc p h1 h2 h3 h4 h5]
          exact List.mem_append_right _ (List.mem_singleton.mpr rfl)
        · exact ih (validatePropStep tagName acc a) hpt
    exact haux props ([], []) hmem
  · have hba : (p.action == some "add") = false := by rwa [beq_eq_false_iff_ne]
    have hbr : (p.action == some "rename") = false := by rwa [beq_eq_false_iff_ne]
    have hbm : (p.action == some "remove") = false := by rwa [beq_eq_false_iff_ne]
    unfold processProp
    rw [if_neg (by simp [hba]), if_neg (by simp [hbr]), if_neg (by simp [hbm])]

/-- Witness for C10: an entry with action `modify` survives validation and
leaves a concrete document state untouched. -/
theorem unknown_action_accepted_noop_witness :
    truthyOptStr wUnknownProp.action = true ∧
    wUnknownProp ∈ (validateProperties (some "draft") [wUnknownProp]).2 ∧
    processProp wState wUnknownProp = wState :=
  ⟨by decide,
    (unknown_action_accepted_noop (some "draft") [wUnknownProp] wUnknownProp wState
      (by decide) (by decide) (by decide) (by decide) (by decide)).1
      (List.mem_singleton.mpr rfl),
    (unknown_action_accepted_noop (some "draft") [wUnknownProp] wUnknownProp wState
      (by decide) (by decide) (by decide) (by decide) (by decide)).2⟩

/-- A configuration whose `tags` key is absent. -/
def wNoTagsCfg : Config := { tags := none }

/-- Counterexample to C7 as stated: with the `tags` section absent, the
rule-production sequence does yield a pair — precisely the degenerate
`(None, None)` pair the claim says is never yielded. -/
theorem getNextTag_yields_none_pair :
    (none, none) ∈ (getNextTag wNoTagsCfg).2 ∧
    (getNextTag wNoTagsCfg).2 = [(none, none)] := by
  constructor
  · decide
  · decide

/-- Claim C7 (amended): for every configuration whose `tags` section is
absent, the rule-production sequence emits exactly one diagnostic and
yields exactly the single degenerate pair `(None, None)`; the
orchestrator's rule loop then skips that pair unchanged. -/
theorem no_tags_degenerate_pair (cfg : Config) (h : cfg.tags = none) :
    (getNextTag cfg).1 = [Diag.error "No tags found."] ∧
    (getNextTag cfg).2 = [(none, none)] ∧
    (∀ st : ProcessorState, runRule st (none, none) = st) := by
  unfold getNextTag
  rw [h]
  exact ⟨rfl, rfl, fun st => rfl⟩

/-- Witness for C7 (amended) at the concrete tagless configuration. -/
theorem no_tags_degenerate_pair_witness :
    wNoTagsCfg.tags = none ∧ (getNextTag wNoTagsCfg).2 = [(none, none)] :=
  ⟨rfl, (no_tags_degenerate_pair wNoTagsCfg rfl).2.1⟩

/-- Claim C2: a cancellation signal at the confirmation gate ends the run
with only the cancellation notice — the trace is exactly the summaries,
the prompt and the notice, and contains no backup creation and no
persistence event. -/
theorem cancellation_graceful (changes : List PropertyChangeTracker)
    (backup : BackupOutcome) :
    finishTrace changes ConfirmOutcome.interrupted backup
        = changes.map FinishEvent.showSummary ++
          [FinishEvent.promptConfirmation, FinishEvent.printCancelled] ∧
    FinishEvent.backupCreated ∉ finishTrace changes ConfirmOutcome.interrupted backup ∧
    FinishEvent.updateContent ∉ finishTrace changes ConfirmOutcome.interrupted backup ∧
    FinishEvent.writeNotes ∉ finishTrace changes ConfirmOutcome.interrupted backup := by
  refine ⟨by simp [finishTrace], by simp [finishTrace], by simp [finishTrace],
    by simp [finishTrace]⟩

/-- Witness for C2 at a concrete run. -/
theorem cancellation_graceful_witness :
    finishTrace [] ConfirmOutcome.interrupted BackupOutcome.success
        = [FinishEvent.promptConfirmation, FinishEvent.printCancelled] ∧
    FinishEvent.backupCreated ∉
      finishTrace [] ConfirmOutcome.interrupted BackupOutcome.success :=
  ⟨(cancellation_graceful [] BackupOutcome.success).1,
    (cancellation_graceful [] BackupOutcome.success).2.1⟩

/-- Claim C1: persistence (`update_content`/`write`) appears in a run's
finishing trace only when the backup succeeded, and then only strictly
after the backup-creation event; when backup creation fails, no
persistence event occurs at all (the process exits first). -/
theorem backup_before_persist (changes : List PropertyChangeTracker)
    (confirm : ConfirmOutcome) (backup : BackupOutcome) :
    ((FinishEvent.updateContent ∈ finishTrace changes confirm backup ∨
      FinishEvent.writeNotes ∈ finishTrace changes confirm backup) →
      backup = BackupOutcome.success ∧
      ∃ pre post, finishTrace changes confirm backup
          = pre ++ FinishEvent.backupCreated :: post ∧
        FinishEvent.updateContent ∈ post ∧ FinishEvent.writeNotes ∈ post) ∧
    (∀ m, backup = BackupOutcome.failure m →
      FinishEvent.updateContent ∉ finishTrace changes confirm backup ∧
      FinishEvent.writeNotes ∉ finishTrace changes confirm backup) := by
  constructor
  · intro hmem
    cases confirm with
    | interrupted =>
      exfalso
      rcases hmem with h | h <;> simp [finishTrace] at h
    | acknowledged =>
      cases backup with
      | failure m =>
        exfalso
        rcases hmem with h | h <;> simp [finishTrace] at h
      | success =>
        refine ⟨rfl, changes.map FinishEvent.showSummary ++ [FinishEvent.promptConfirmation],
          [FinishEvent.updateContent, FinishEvent.writeNotes, FinishEvent.printSaved],
          by simp [finishTrace], by simp, by simp⟩
  · intro m hb
    subst hb
    cases confirm with
    | interrupted => exact ⟨by simp [finishTrace], by simp [finishTrace]⟩
    | acknowledged => exact ⟨by simp [finishTrace], by simp [finishTrace]⟩

/-- Witness for C1: a successful run persists strictly after the backup
event; a failing backup yields no persistence event. -/
theorem backup_before_persist_witness :
    (∃ pre post, finishTrace [] ConfirmOutcome.acknowledged BackupOutcome.success
        = pre ++ FinishEvent.backupCreated :: post ∧
      FinishEvent.updateContent ∈ post ∧ FinishEvent.writeNotes ∈ post) ∧
    (FinishEvent.updateContent ∉
        finishTrace [] ConfirmOutcome.acknowledged (BackupOutcome.failure "boom") ∧
      FinishEvent.writeNotes ∉
        finishTrace [] ConfirmOutcome.acknowledged (BackupOutcome.failure "boom")) :=
  ⟨((backup_before_persist [] ConfirmOutcome.acknowledged BackupOutcome.success).1
      (Or.inl (by decide))).2,
    (backup_before_persist [] ConfirmOutcome.acknowledged (BackupOutcome.failure "boom")).2
      "boom" rfl⟩

/-- Counterexample to C6 as stated: loading a missing configuration file
does not surface a `ConfigLoadError` result to the caller — the loader
terminates the process directly with `exit(-1)` and never returns. -/
theorem load_failure_exits_directly :
    loadYaml "config.yaml" LoadInput.fileNotFound
        = LoadOutcome.exited (-1) "[ERROR] - The file config.yaml was not found." ∧
    (∀ cfg : Config, loadYaml "config.yaml" LoadInput.fileNotFound ≠ LoadOutcome.ok cfg) := by
  constructor
  · rfl
  · intro cfg h
    exact LoadOutcome.noConfusion h

/-- Claim C6 (amended): loading from a path that is missing, unparsable,
or otherwise unreadable prints a case-specific error message (the three
messages are pairwise distinct) and terminates the process directly with
exit status `-1`; the configuration is never returned, so no processing
occurs — the failure is not surfaced to the caller as a result. -/
theorem load_failure_terminates (path m : String) :
    loadYaml path LoadInput.fileNotFound
        = LoadOutcome.exited (-1) ("[ERROR] - The file " ++ path ++ " was not found.") ∧
    loadYaml path LoadInput.yamlError
        = LoadOutcome.exited (-1) ("[ERROR] - The file " ++ path ++ " could not be read.") ∧
    loadYaml path (LoadInput.otherError m)
        = LoadOutcome.exited (-1) ("[ERROR] - An error occurred: " ++ m) ∧
    ("[ERROR] - The file " ++ path ++ " was not found.")
        ≠ ("[ERROR] - The file " ++ path ++ " could not be read.") ∧
    ("[ERROR] - The file " ++ path ++ " was not found.")
        ≠ ("[ERROR] - An error occurred: " ++ m) ∧
    ("[ERROR] - The file " ++ path ++ " could not be read.")
        ≠ ("[ERROR] - An error occurred: " ++ m) ∧
    (∀ inp : LoadInput, (∀ c : Config, inp ≠ LoadInput.parsed c) →
      ∀ cfg : Config, loadYaml path inp ≠ LoadOutcome.ok cfg) := by
  refine ⟨rfl, rfl, rfl, ?_, ?_, ?_, ?_⟩
  · intro h
    have h2 := congrArg String.length h
    simp only [String.length_append] at h2
    have e1 : String.length " was not found." = 15 := by decide
    have e2 : String.length " could not be read." = 19 := by decide
    rw [e1, e2] at h2
    omega
  · intro h
    have h2 := congrArg (fun s : String => s.data[10]?) h
    simp only [String.data_append, List.append_assoc] at h2
    rw [List.getElem?_append_left
        (show (10 : Nat) < "[ERROR] - The file ".data.length by decide)] at h2
    rw [List.getElem?_append_left
        (show (10 : Nat) < "[ERROR] - An error occurred: ".data.length by decide)] at h2
    exact absurd h2 (by decide)
  · intro h
    have h2 := congrArg (fun s : String => s.data[10]?) h
    simp only [String.data_append, List.append_assoc] at h2
    rw [List.getElem?_append_left
        (show (10 : Nat) < "[ERROR] - The file ".data.length by decide)] at h2
    rw [List.getElem?_append_left
        (show (10 : Nat) < "[ERROR] - An error occurred: ".data.length by decide)] at h2
    exact absurd h2 (by decide)
  · intro inp hinp cfg h
    cases inp with
    | parsed c => exact hinp c rfl
    | fileNotFound => exact LoadOutcome.noConfusion h
    | yamlError => exact LoadOutcome.noConfusion h
    | otherError m2 => exact LoadOutcome.noConfusion h

/-- Witness for C6 (amended) at a concrete path and error. -/
theorem load_failure_terminates_witness :
    loadYaml "config.yaml" LoadInput.fileNotFound ≠ LoadOutcome.ok { tags := none } ∧
    loadYaml "config.yaml" LoadInput.yamlError
        = LoadOutcome.exited (-1)
            ("[ERROR] - The file " ++ "config.yaml" ++ " could not be read.") :=
  ⟨(load_failure_terminates "config.yaml" "boom").2.2.2.2.2.2 LoadInput.fileNotFound
      (fun _ h => LoadInput.noConfusion h) { tags := none },
    (load_failure_terminates "config.yaml" "boom").2.1⟩

/-- Claim C5: `_get_filtered_notes` filters the processor's own shared
collection in place and returns that very collection, so each rule's
document selection runs against the collection as filtered by all earlier
rules: across one rule, across any rule sequence, and across a whole run
the candidate document set (by path) can only shrink, and the final
persistence step operates on the cumulatively filtered collection. -/
theorem filtered_notes_shared_and_shrinking :
    (∀ (st : ProcessorState) (tag : String),
      (getFilteredNotes st tag).2 = (getFilteredNotes st tag).1.notes) ∧
    (∀ (st : ProcessorState) (pair : Option String × Option (List PropEntry)),
      List.Sublist ((runRule st pair).notes.map Note.path) (st.notes.map Note.path)) ∧
    (∀ (pairs : List (Option String × Option (List PropEntry))) (st : ProcessorState),
      List.Sublist ((pairs.foldl runRule st).notes.map Note.path)
        (st.notes.map Note.path)) ∧
    (∀ (cfg : Config) (ns : List Note),
      List.Sublist ((runRules cfg ns).notes.map Note.path) (ns.map Note.path)) := by
  have hrule : ∀ (st : ProcessorState) (pair : Option String × Option (List PropEntry)),
      List.Sublist ((runRule st pair).notes.map Note.path) (st.notes.map Note.path) := by
    intro st pair
    unfold runRule
    by_cases h1 : (!(truthyOptStr pair.1) || !(truthyProps pair.2)) = true
    · rw [if_pos h1]
    · rw [if_neg h1]
      by_cases h2 : (getFilteredNotes st (pyStr pair.1)).2.isEmpty = true
      · rw [if_pos h2]
        show List.Sublist
          ((st.notes.filter (noteMatchesTag (pyStr pair.1))).map Note.path) _
        exact List.Sublist.map Note.path (List.filter_sublist _)
      · rw [if_neg h2]
        show List.Sublist
          ((((st.notes.filter (noteMatchesTag (pyStr pair.1))).map
            (processNote (pair.2.getD []))).map (·.1)).map Note.path) _
        rw [List.map_map, List.map_map]
        have hcomp : ((Note.path ∘ fun x : Note × PropertyChangeTracker => x.1) ∘
            processNote (pair.2.getD [])) = Note.path := funext fun n => rfl
        rw [hcomp]
        exact List.Sublist.map Note.path (List.filter_sublist _)
  have hfold : ∀ (pairs : List (Option String × Option (List PropEntry)))
      (st : ProcessorState),
      List.Sublist ((pairs.foldl runRule st).notes.map Note.path)
        (st.notes.map Note.path) := by
    intro pairs
    induction pairs with
    | nil => intro st; exact List.Sublist.refl _
    | cons a t ih =>
      intro st
      exact List.Sublist.trans (ih (runRule st a)) (hrule st a)
  exact ⟨fun st tag => rfl, hrule, hfold, fun cfg ns => hfold (getNextTag cfg).2 _⟩

theorem processProp_tracker_frame (s : NoteProcState) (p : PropEntry) :
    (processProp s p).tracker.filename = s.tracker.filename ∧
    (processProp s p).tracker.old_frontmatter = s.tracker.old_frontmatter ∧
    (processProp s p).tracker.new_frontmatter = s.tracker.new_frontmatter := by
  unfold processProp addProperty renameProperty removeProperty addChange addLog
  split_ifs <;> exact ⟨rfl, rfl, rfl⟩

theorem processProperties_tracker_frame (props : List PropEntry) (s : NoteProcState) :
    (processProperties props s).tracker.filename = s.tracker.filename ∧
    (processProperties props s).tracker.old_frontmatter = s.tracker.old_frontmatter := by
  unfold processProperties
  induction props generalizing s with
  | nil => exact ⟨rfl, rfl⟩
  | cons a t ih =>
    have hstep := processProp_tracker_frame s a
    have hrec := ih (processProp s a)
    exact ⟨hrec.1.trans hstep.1, hrec.2.trans hstep.2.1⟩

/-- Claim C9: a document's tracker carries the document's path, its
`old_frontmatter` is exactly the metadata the document had when its
processing began, and its `new_frontmatter` is exactly the metadata the
document has when its operations complete; the session is append-only —
each rule, and any sequence of rules, only ever appends new trackers after
the existing ones, so a tracker (its snapshots being plain values) is
never changed by later mutation of the live document. -/
theorem tracker_snapshots_immutable :
    (∀ (props : List PropEntry) (n : Note),
      (processNote props n).2.filename = n.path ∧
      (processNote props n).2.old_frontmatter = n.frontmatter ∧
      (processNote props n).2.new_frontmatter = (processNote props n).1.frontmatter) ∧
    (∀ (st : ProcessorState) (pair : Option String × Option (List PropEntry)),
      ∃ ts, (runRule st pair).allChanges = st.allChanges ++ ts) ∧
    (∀ (pairs : List (Option String × Option (List PropEntry))) (st : ProcessorState),
      ∃ ts, (pairs.foldl runRule st).allChanges = st.allChanges ++ ts) := by
  have hrule : ∀ (st : ProcessorState) (pair : Option String × Option (List PropEntry)),
      ∃ ts, (runRule st pair).allChanges = st.allChanges ++ ts := by
    intro st pair
    unfold runRule
    by_cases h1 : (!(truthyOptStr pair.1) || !(truthyProps pair.2)) = true
    · rw [if_pos h1]
      exact ⟨[], (List.append_nil _).symm⟩
    · rw [if_neg h1]
      by_cases h2 : (getFilteredNotes st (pyStr pair.1)).2.isEmpty = true
      · rw [if_pos h2]
        exact ⟨[], (List.append_nil _).symm⟩
      · rw [if_neg h2]
        exact ⟨_, rfl⟩
  refine ⟨?_, hrule, ?_⟩
  · intro props n
    have hframe := processProperties_tracker_frame props
      { fm := n.frontmatter,
        tracker := { filename := n.path, old_frontmatter := n.frontmatter,
                     new_frontmatter := [], changes := [], logs := [] } }
    exact ⟨hframe.1, hframe.2, rfl⟩
  · intro pairs
    induction pairs with
    | nil => intro st; exact ⟨[], (List.append_nil _).symm⟩
    | cons a t ih =>
      intro st
      obtain ⟨ts1, h1⟩ := hrule st a
      obtain ⟨ts2, h2⟩ := ih (runRule st a)
      exact ⟨ts1 ++ ts2, by rw [List.foldl_cons, h2, h1, List.append_assoc]⟩
